import Mathlib

/-!
Verification of the `gostratum/httpc` outbound HTTP client.

This file shallowly embeds the parts of the Go source that the checked
properties are about: the retry policy (`retry/retry.go`), the retry
middleware loop, the request builder's URL resolution and header
defaulting (`request.go`), the API-key auth provider (`auth/apikey.go`),
the lazy response body cache (`response.go`), and the per-host circuit
breaker manager (`breaker.go`, whose underlying `gobreaker` state machine
is modelled from the specification since its source is external).

Go machine integers (`int`, `time.Duration` = `int64` nanoseconds) are
modelled as `Int`; durations never approach overflow in the checked
properties.  The jitter random draw `rand.Float64()` is modelled as an
arbitrary rational in `[0, 1]` and the backoff arithmetic is carried out
exactly over `ℚ`.
-/

namespace Httpc

/-- Transport-level Go errors, as the retry policy distinguishes them:
`context.Canceled`, `context.DeadlineExceeded`, a `net.Error` with its
`Timeout()`/`Temporary()` flags, any other error, and the
`fmt.Errorf("retry interrupted: %w", err)` wrapper produced by the retry
middleware. -/
inductive GoErr where
  | canceled
  | deadlineExceeded
  | netErr (timeout : Bool) (temporary : Bool)
  | other
  | retryInterrupted (e : GoErr)
  deriving DecidableEq, Repr

/-- `errors.Is(err, context.Canceled) || errors.Is(err, context.DeadlineExceeded)`:
`errors.Is` unwraps wrapped errors. -/
def isCtxErr : GoErr → Bool
  | .canceled => true
  | .deadlineExceeded => true
  | .retryInterrupted e => isCtxErr e
  | _ => false

/-- `isNetErrorRetryable` from `retry/retry.go`: `errors.As` digs a
`net.Error` out of the chain and the error is retryable iff
`netErr.Timeout() || netErr.Temporary()`. -/
def isNetErrorRetryable : GoErr → Bool
  | .netErr t p => t || p
  | .retryInterrupted e => isNetErrorRetryable e
  | _ => false

/-- `time.Millisecond` in nanoseconds. -/
def millisecond : Int := 1000000

/-- `time.Second` in nanoseconds. -/
def second : Int := 1000000000

/-- `retry.PolicyConfig` from `retry/retry.go` (`Env` is unused by the
policy logic and omitted). -/
structure PolicyConfig where
  maxAttempts : Int
  baseBackoff : Int
  maxBackoff : Int
  statusCodes : List Int
  idempotentOnly : Bool
  deriving DecidableEq, Repr

/-- The `retry.policy` struct: the state `NewPolicy` stores (the mutex and
random source are not part of the decision logic; the random draw is an
explicit argument of `backoffDelay`). -/
structure Policy where
  maxAttempts : Int
  baseBackoff : Int
  maxBackoff : Int
  statusCodes : List Int
  idempotentOnly : Bool
  deriving DecidableEq, Repr

/-- `retry.NewPolicy`: non-positive attempts/backoffs are replaced by the
defaults 3, 200ms and 2s before the policy is built.  (The Go code also
copies `StatusCodes` into a set; list membership has the same meaning.) -/
def NewPolicy (cfg : PolicyConfig) : Policy :=
  let ma := if cfg.maxAttempts ≤ 0 then 3 else cfg.maxAttempts
  let bb := if cfg.baseBackoff ≤ 0 then 200 * millisecond else cfg.baseBackoff
  let mb := if cfg.maxBackoff ≤ 0 then 2 * second else cfg.maxBackoff
  { maxAttempts := ma
    baseBackoff := bb
    maxBackoff := mb
    statusCodes := cfg.statusCodes
    idempotentOnly := cfg.idempotentOnly }

/-- `strings.ToUpper`, character by character (ASCII is all that matters
for HTTP method names). -/
def goToUpper (s : String) : String := ⟨s.data.map Char.toUpper⟩

/-- `isIdempotent` from `retry/retry.go`: a `switch` on
`strings.ToUpper(method)` over the five idempotent methods. -/
def isIdempotent (method : String) : Bool :=
  let m := goToUpper method
  m == "GET" || m == "HEAD" || m == "OPTIONS" || m == "PUT" || m == "DELETE"

/-- `(*policy).ShouldRetry` from `retry/retry.go`, restricted to the
boolean decision (the returned delay is `backoffDelay`).  `resp` is the
response status code when a response was produced, `err` the transport
error when one occurred. -/
def shouldRetry (p : Policy) (method : String) (resp : Option Int)
    (err : Option GoErr) (attempt : Int) (force : Bool) : Bool :=
  if p.maxAttempts ≤ attempt then false
  else if !force && p.idempotentOnly && !isIdempotent method then false
  else
    match err with
    | some e =>
        if isCtxErr e then false
        else isNetErrorRetryable e
    | none =>
        match resp with
        | none => false
        | some status => p.statusCodes.contains status

/-- The fixed idempotent method set named by the specification
(§4.3 rule 2). -/
def specIdempotentMethods : List String :=
  ["GET", "HEAD", "OPTIONS", "PUT", "DELETE"]

/-- The retry decision exactly as the specification words it (§4.3,
rules 1–4, evaluated in order): 1. stop once the attempt count reached the
maximum; 2. when restricted to idempotent methods and not forced, stop for
any method outside the fixed idempotent set; 3. on a transport error,
never retry cancellation/deadline errors, retry timeout-like or transient
network errors, stop on anything else; 4. on a response, retry exactly
when the status code is in the retryable set; otherwise stop. -/
def shouldRetrySpec (p : Policy) (method : String) (resp : Option Int)
    (err : Option GoErr) (attempt : Int) (force : Bool) : Bool :=
  if attempt ≥ p.maxAttempts then false
  else if p.idempotentOnly && !force
      && !(specIdempotentMethods.contains (goToUpper method)) then false
  else
    match err, resp with
    | some e, _ => if isCtxErr e then false else isNetErrorRetryable e
    | none, some status => p.statusCodes.contains status
    | none, none => false

/-- `(*policy).backoff` from `retry/retry.go`, with the random draw
`rand.Float64()` made explicit as `j`: the capped exponential delay plus a
jitter of `j` times 20% of it, computed exactly over `ℚ`. -/
def backoffDelay (p : Policy) (attempt : Int) (j : ℚ) : ℚ :=
  let delay : ℚ :=
    min ((p.baseBackoff : ℚ) * 2 ^ (attempt - 1).toNat) ((p.maxBackoff : ℚ))
  delay + j * delay * (1 / 5)

/-- The outcome of one transport attempt: `next.RoundTrip` returns either
a response (with its status code) or a transport error. -/
inductive Outcome where
  | resp (status : Int)
  | err (e : GoErr)
  deriving DecidableEq, Repr

/-- The `resp` component of the Go `(resp, err)` pair. -/
def respOf : Outcome → Option Int
  | .resp s => some s
  | .err _ => none

/-- The `err` component of the Go `(resp, err)` pair. -/
def errOf : Outcome → Option GoErr
  | .resp _ => none
  | .err e => some e

/-- Result of the retry middleware's round trip, recording how many
attempts were performed. -/
inductive RunResult where
  | resp (status : Int) (attempts : Nat)
  | err (e : GoErr) (attempts : Nat)
  deriving DecidableEq, Repr

/-- `waitWithContext` from `retry/retry.go`: a non-positive delay returns
immediately with no error; otherwise the wait races the request context —
`ctxDone` is the context's error when it is cancelled (or its deadline
fires) during the wait, `none` when the timer wins. -/
def waitOutcome (ctxDone : Option GoErr) (d : ℚ) : Option GoErr :=
  if d ≤ 0 then none else ctxDone

/-- The retry loop of `retry.NewMiddleware`, one iteration per attempt
(attempt numbering starts at 1 as in the Go code).  `transport k` is the
outcome `next.RoundTrip` yields on attempt `k`, `ctxDone k` the request
context's error should it become done during the wait after attempt `k`,
and `jit k` the random jitter draw used for that wait.  The `fuel`
argument bounds the recursion; since `shouldRetry` refuses once
`attempt ≥ maxAttempts`, fuel `maxAttempts` (see `runRetry`) is never
exhausted and the zero-fuel case coincides with a final non-retried
attempt. -/
def runRetryLoop (p : Policy) (method : String) (force : Bool)
    (transport : Nat → Outcome) (ctxDone : Nat → Option GoErr)
    (jit : Nat → ℚ) : Nat → Nat → RunResult
  | 0, attempt =>
      match transport attempt with
      | .resp s => .resp s attempt
      | .err e => .err e attempt
  | fuel + 1, attempt =>
      let out := transport attempt
      if shouldRetry p method (respOf out) (errOf out) (attempt : Int) force then
        match waitOutcome (ctxDone attempt)
            (backoffDelay p (attempt : Int) (jit attempt)) with
        | some e => .err (.retryInterrupted e) attempt
        | none => runRetryLoop p method force transport ctxDone jit fuel (attempt + 1)
      else
        match out with
        | .resp s => .resp s attempt
        | .err e => .err e attempt

/-- The retry middleware's round trip when a policy is in effect:
the loop starting at attempt 1. -/
def runRetry (p : Policy) (method : String) (force : Bool)
    (transport : Nat → Outcome) (ctxDone : Nat → Option GoErr)
    (jit : Nat → ℚ) : RunResult :=
  runRetryLoop p method force transport ctxDone jit p.maxAttempts.toNat 1

/-- The middleware when no retry policy is configured (retries disabled):
`return next.RoundTrip(req)` — a single attempt, whatever its outcome. -/
def runNoRetry (transport : Nat → Outcome) : RunResult :=
  match transport 1 with
  | .resp s => .resp s 1
  | .err e => .err e 1

/-- The default retryable status codes from `Config.applyDefaults`. -/
def defaultRetryStatusCodes : List Int := [502, 503, 504]

/-- The retry policy `httpc.New` constructs when retries are enabled with
max attempts 3 under the default configuration: 200ms base backoff, 2s
cap, retry on 502/503/504, and `IdempotentOnly: true`. -/
def clientDefaultPolicy : Policy :=
  NewPolicy
    { maxAttempts := 3
      baseBackoff := 200 * millisecond
      maxBackoff := 2 * second
      statusCodes := defaultRetryStatusCodes
      idempotentOnly := true }

/-- A server that always answers 503 Service Unavailable. -/
def always503 : Nat → Outcome := fun _ => .resp 503

/-- A request context that never gets cancelled. -/
def ctxNeverDone : Nat → Option GoErr := fun _ => none

/-- A request context whose deadline fires during every inter-attempt
wait. -/
def ctxDeadlineDuringWait : Nat → Option GoErr :=
  fun _ => some GoErr.deadlineExceeded

/-- A degenerate jitter source drawing 0 every time. -/
def zeroJitter : Nat → ℚ := fun _ => 0

/-- The wait never reports an error when the context never becomes
done. -/
theorem waitOutcome_none (d : ℚ) : waitOutcome none d = none := by
  unfold waitOutcome
  split <;> rfl

/-! URL resolution (`Request.buildHTTPRequest`, request.go). -/

/-- `strings.TrimRight(s, "/")`: remove every trailing slash. -/
def trimTrailingSlashes (s : String) : String :=
  ⟨(s.data.reverse.dropWhile (fun c => c == '/')).reverse⟩

/-- `strings.TrimLeft(s, "/")`: remove every leading slash. -/
def trimLeadingSlashes (s : String) : String :=
  ⟨s.data.dropWhile (fun c => c == '/')⟩

/-- `strings.HasPrefix(s, "/")`. -/
def startsWithSlash (s : String) : Bool :=
  match s.data with
  | c :: _ => c == '/'
  | [] => false

/-- Scheme scan of Go's `url.Parse`/`getscheme` after the first character:
a `:` terminates a scheme, scheme characters continue the scan, anything
else means there is no scheme. -/
def schemeScan : List Char → Bool
  | [] => false
  | c :: rest =>
      if c == ':' then true
      else (c.isAlphanum || c == '+' || c == '-' || c == '.') && schemeScan rest

/-- `isAbsoluteURL` from request.go: `url.Parse(raw)` succeeded and the
parsed scheme is non-empty.  A scheme is a leading letter followed by
letters/digits/`+`/`-`/`.` up to a `:` (Go's `getscheme`); parse failures
past the scheme do not matter for the inputs considered here. -/
def isAbsoluteURL (raw : String) : Bool :=
  match raw.data with
  | [] => false
  | c :: rest => c.isAlpha && schemeScan rest

/-- The URL-resolution step of `Request.buildHTTPRequest` (request.go):
when a base URL is configured and the target has no scheme, the target
becomes the base with trailing slashes trimmed, then — only when the
target does NOT start with `/` — a `/` separator, then the target with
leading slashes trimmed. -/
def resolveTarget (baseURL target : String) : String :=
  if baseURL ≠ "" && !isAbsoluteURL target then
    let t := trimTrailingSlashes baseURL
    let t := if !startsWithSlash target then t ++ "/" else t
    t ++ trimLeadingSlashes target
  else target

/-! Header defaulting of `Request.buildHTTPRequest` (request.go).
Header keys are modelled as exact strings (Go canonicalizes MIME header
keys; every key in play is already canonical). -/

/-- `http.Header.Get`: first value for the key, `""` when absent. -/
def getHeader (hs : List (String × String)) (k : String) : String :=
  match hs.find? (fun p => p.1 == k) with
  | some p => p.2
  | none => ""

/-- `http.Header.Set`: replace all values for the key with the one
given. -/
def setHeader (hs : List (String × String)) (k v : String) :
    List (String × String) :=
  (k, v) :: hs.filter (fun p => !(p.1 == k))

/-- One defaulting block of `buildHTTPRequest`:
`if v != "" && req.Header.Get(k) == "" { req.Header.Set(k, v) }`. -/
def setDefaultHeader (k v : String) (hs : List (String × String)) :
    List (String × String) :=
  if v ≠ "" ∧ getHeader hs k = "" then setHeader hs k v else hs

/-- The three defaulting blocks at the end of `buildHTTPRequest`, in
source order: `User-Agent`, then `Content-Type`, then `Accept`. -/
def applyDefaults (ua ct acc : String) (hs : List (String × String)) :
    List (String × String) :=
  setDefaultHeader "Accept" acc
    (setDefaultHeader "Content-Type" ct
      (setDefaultHeader "User-Agent" ua hs))

/-- The wire request produced by the builder: resolved URL, final
headers, materialized body and content length. -/
structure WireRequest where
  url : String
  headers : List (String × String)
  body : List Nat
  contentLength : Int
  deriving DecidableEq, Repr

deriving instance DecidableEq for Except

/-- The logical `httpc.Request` (request.go), with its body factory
modelled by the value it deterministically produces: `none` for no body,
otherwise the content bytes and factory default content-type, or the
factory's error. -/
structure GoRequest where
  method : String
  url : String
  headers : List (String × String)
  queries : List (String × String)
  contentType : String
  accept : String
  bodyFactory : Option (Except GoErr (List Nat × String))
  deriving DecidableEq, Repr

/-- The body-materialization and header phase of
`Request.buildHTTPRequest` (request.go, after URL resolution and query
merge, whose result is `target`): invoke the body factory once — its
error aborts the build; a non-empty factory content-type OVERWRITES
`r.contentType` — copy the caller's headers, then fill the computed
defaults via `applyDefaults`. -/
def buildWireRequest (ua : String) (r : GoRequest) (target : String) :
    Except GoErr WireRequest :=
  match r.bodyFactory with
  | some (.error e) => .error e
  | some (.ok (content, ctype)) =>
      let ct := if ctype ≠ "" then ctype else r.contentType
      .ok { url := target
            headers := applyDefaults ua ct r.accept r.headers
            body := content
            contentLength := (content.length : Int) }
  | none =>
      .ok { url := target
            headers := applyDefaults ua r.contentType r.accept r.headers
            body := []
            contentLength := 0 }

/-! API-key auth provider (`auth/apikey.go`). -/

/-- `strings.ToLower`, character by character. -/
def goToLower (s : String) : String := ⟨s.data.map Char.toLower⟩

/-- `strings.TrimSpace`. -/
def goTrim (s : String) : String :=
  ⟨((s.data.dropWhile (fun c => c.isWhitespace)).reverse.dropWhile
      (fun c => c.isWhitespace)).reverse⟩

/-- `auth.APIKeyOptions`. -/
structure APIKeyOptions where
  key : String
  keyIn : String
  name : String
  deriving DecidableEq, Repr

/-- `auth.apiKeyProvider`. -/
structure APIKeyProvider where
  key : String
  location : String
  name : String
  deriving DecidableEq, Repr

/-- The location normalization inside `NewAPIKey`:
`strings.ToLower(strings.TrimSpace(opts.In))`, with `""` defaulting to
`"header"`. -/
def normLocation (s : String) : String :=
  let l := goToLower (goTrim s)
  if l = "" then "header" else l

/-- `auth.NewAPIKey`. -/
def NewAPIKey (opts : APIKeyOptions) : APIKeyProvider :=
  { key := opts.key
    location := normLocation opts.keyIn
    name := if opts.name = "" then "X-API-Key" else opts.name }

/-- A wire request as the auth providers see it: header multimap and URL
query values (`req.URL` is always present here, so the nil-URL guard of
the Go code cannot fire). -/
structure HttpRequest where
  headers : List (String × String)
  query : List (String × String)
  deriving DecidableEq, Repr

/-- `(*apiKeyProvider).Apply` from `auth/apikey.go`: empty secret fails;
`query` placement sets the named query parameter (`url.Values.Set`),
`header` (or empty) placement sets the named header, anything else
fails.  `setHeader` models both `Header.Set` and `Values.Set`
(replace-all-values-with-one). -/
def apiKeyApply (p : APIKeyProvider) (req : HttpRequest) :
    Except String HttpRequest :=
  if p.key = "" then .error "api key is empty"
  else if p.location = "query" then
    .ok { req with query := setHeader req.query p.name p.key }
  else if p.location = "header" ∨ p.location = "" then
    .ok { req with headers := setHeader req.headers p.name p.key }
  else .error ("unsupported api key location: " ++ p.location)

/-- The normalized location is never the empty string. -/
theorem normLocation_ne_empty (s : String) : normLocation s ≠ "" := by
  unfold normLocation
  dsimp only
  split
  · decide
  · assumption

/-! Response wrapper (`response.go`). -/

/-- The `httpc.Response` state: `source` is the underlying
`http.Response` body — its content, or the error reading it produces —
(`none` when `raw`/`raw.Body` is nil); `reads` counts how many times the
underlying network body has been consumed and `closed` whether it has
been closed; `body`/`loaded`/`err` are the cache fields of the Go
struct. -/
structure ResponseState where
  status : Int
  source : Option (Except GoErr (List Nat))
  reads : Nat
  closed : Bool
  body : List Nat
  loaded : Bool
  err : Option GoErr
  deriving DecidableEq, Repr

/-- `(*Response).ensureBody` from response.go: once loaded (or failed)
it returns the cached error without touching the source; otherwise it
reads the whole source exactly once, closing it (the deferred close), and
caches either the bytes (setting `loaded`) or the read error. -/
def ensureBody (r : ResponseState) : Option GoErr × ResponseState :=
  if r.loaded || r.err.isSome then (r.err, r)
  else
    match r.source with
    | some (.ok b) =>
        (none, { r with reads := r.reads + 1, closed := true, body := b,
                        loaded := true })
    | some (.error e) =>
        (some e, { r with reads := r.reads + 1, closed := true,
                          err := some e })
    | none => (none, { r with loaded := true })

/-- `(*Response).Bytes`: ensure the body is materialized, then return the
cached bytes (the Go code returns a fresh copy; the value is the
same). -/
def bytes (r : ResponseState) : Except GoErr (List Nat) × ResponseState :=
  match ensureBody r with
  | (some e, r') => (.error e, r')
  | (none, r') => (.ok r'.body, r')

/-! Circuit breaker (`breaker.go` and `gobreaker`). -/

/-- Circuit breaker states. -/
inductive BState where
  | closed
  | opened
  | halfOpen
  deriving DecidableEq, Repr

/-- Per-host breaker state: state, consecutive-failure counter, and the
(abstract, `Nat`-valued) time the breaker last opened. -/
structure BreakerState where
  state : BState
  consecutiveFailures : Nat
  openedAt : Nat
  deriving DecidableEq, Repr

/-- A fresh breaker. -/
def initialBreaker : BreakerState := ⟨.closed, 0, 0⟩

/-- The default `ReadyToTrip` installed by `manager.get` in breaker.go:
`counts.ConsecutiveFailures >= 5`. -/
def readyToTrip (n : Nat) : Bool := 5 ≤ n

/-- The manager's default open-state cooldown
(`defaultDuration(cfg.Timeout, 30*time.Second)`), in abstract time
units. -/
def breakerCooldown : Nat := 30

/-- Result of one breaker-guarded call: rejected without invoking the
wrapped transport, or executed with the transport's outcome. -/
inductive BreakerResult where
  | rejected
  | executed (o : Outcome)
  deriving DecidableEq, Repr

/-- Modelled from the spec: the `gobreaker` state machine driven by
`cb.Execute` (the `gobreaker` source is an external dependency, not part
of this repository).  Per §4.4: Open rejects immediately; after the
cooldown the next call is allowed as a half-open trial; a failure — and a
failure is the wrapped call returning a transport error, never a non-2xx
response — increments the consecutive-failure counter and trips the
breaker when `readyToTrip` holds (or immediately in half-open); a success
resets the counter and closes the breaker. -/
def breakerStep (now : Nat) (b : BreakerState) (out : Outcome) :
    BreakerResult × BreakerState :=
  let st := if b.state = BState.opened ∧ b.openedAt + breakerCooldown ≤ now
    then BState.halfOpen else b.state
  match st with
  | .opened => (.rejected, b)
  | _ =>
      match out with
      | .err e =>
          let n := b.consecutiveFailures + 1
          if st = BState.halfOpen ∨ readyToTrip n then
            (.executed (.err e), ⟨.opened, n, now⟩)
          else
            (.executed (.err e), ⟨.closed, n, b.openedAt⟩)
      | .resp s => (.executed (.resp s), ⟨.closed, 0, b.openedAt⟩)

/-- `(*manager).Do` from breaker.go: an empty host bypasses the breaker
entirely and executes the wrapped call directly; otherwise the host's
breaker guards the call. -/
def managerDo (host : String) (now : Nat) (b : BreakerState)
    (out : Outcome) : BreakerResult × BreakerState :=
  if host = "" then (.executed out, b)
  else breakerStep now b out

/-- The breaker state after `n` consecutive transport failures (all at
time 0) starting from a fresh breaker. -/
def afterFailures : Nat → BreakerState
  | 0 => initialBreaker
  | n + 1 => (breakerStep 0 (afterFailures n) (Outcome.err GoErr.other)).2

/-- `find?` looking for one key is unaffected by filtering out a
different key. -/
theorem find?_filter_ne (hs : List (String × String)) (k k' : String)
    (h : k' ≠ k) :
    (hs.filter (fun p => !(p.1 == k))).find? (fun p => p.1 == k')
      = hs.find? (fun p => p.1 == k') := by
  induction hs with
  | nil => rfl
  | cons a t ih =>
      by_cases ha : a.1 = k
      · have h2 : (a.1 == k') = false := by
          rw [ha]
          exact beq_eq_false_iff_ne.mpr (Ne.symm h)
        have hfa : (!(a.1 == k)) = false := by simp [ha]
        simp only [List.filter_cons, hfa, Bool.false_eq_true, if_false,
          List.find?_cons, h2, ih]
      · have hfa : (!(a.1 == k)) = true := by simp [ha]
        simp only [List.filter_cons, hfa, if_true, List.find?_cons]
        cases hpk : (a.1 == k') <;> simp [ih]

/-- Reading back the key just set. -/
theorem getHeader_setHeader_self (hs : List (String × String)) (k v : String) :
    getHeader (setHeader hs k v) k = v := by
  simp [getHeader, setHeader, List.find?]

/-- Setting one key leaves every other key unchanged. -/
theorem getHeader_setHeader_ne (hs : List (String × String)) (k k' v : String)
    (h : k' ≠ k) :
    getHeader (setHeader hs k v) k' = getHeader hs k' := by
  have hne : (k == k') = false := beq_eq_false_iff_ne.mpr (Ne.symm h)
  simp [getHeader, setHeader, List.find?, hne, find?_filter_ne hs k k' h]

end Httpc

namespace Httpc

/-- C10: `NewPolicy` normalizes non-positive configuration — `MaxAttempts ≤ 0`
becomes 3, `BaseBackoff ≤ 0` becomes 200ms, `MaxBackoff ≤ 0` becomes 2s —
so every constructed policy has strictly positive attempt budget and
backoff bounds. -/
theorem newPolicy_normalizes (cfg : PolicyConfig) :
    (NewPolicy cfg).maxAttempts
        = (if cfg.maxAttempts ≤ 0 then 3 else cfg.maxAttempts)
    ∧ (NewPolicy cfg).baseBackoff
        = (if cfg.baseBackoff ≤ 0 then 200 * millisecond else cfg.baseBackoff)
    ∧ (NewPolicy cfg).maxBackoff
        = (if cfg.maxBackoff ≤ 0 then 2 * second else cfg.maxBackoff)
    ∧ (NewPolicy cfg).statusCodes = cfg.statusCodes
    ∧ (NewPolicy cfg).idempotentOnly = cfg.idempotentOnly
    ∧ 0 < (NewPolicy cfg).maxAttempts
    ∧ 0 < (NewPolicy cfg).baseBackoff
    ∧ 0 < (NewPolicy cfg).maxBackoff := by
  unfold NewPolicy millisecond second
  refine ⟨rfl, rfl, rfl, rfl, rfl, ?_, ?_, ?_⟩ <;>
    · simp only []
      split <;> omega

/-- C3: the coded retry decision coincides with the specification's ordered
rule for every method, outcome, attempt index and force flag. -/
theorem shouldRetry_follows_spec (p : Policy) (method : String)
    (resp : Option Int) (err : Option GoErr) (attempt : Int) (force : Bool) :
    shouldRetry p method resp err attempt force
      = shouldRetrySpec p method resp err attempt force := by
  have hidem : isIdempotent method
      = specIdempotentMethods.contains (goToUpper method) := by
    unfold isIdempotent specIdempotentMethods
    simp only [List.contains_cons, List.contains_nil, Bool.or_false,
      Bool.or_assoc]
  simp only [shouldRetry, shouldRetrySpec, hidem, ge_iff_le]
  by_cases h1 : p.maxAttempts ≤ attempt <;>
    cases force <;> cases p.idempotentOnly <;>
    by_cases h2 : specIdempotentMethods.contains (goToUpper method) = true <;>
    cases err <;> cases resp <;>
    simp [h1, h2]

/-- C1 (counterexample): a POST against an always-503 server, with the
client's retries-enabled policy (max attempts 3) and the forced-retry flag
NOT set, does not make 3 attempts — the policy is restricted to idempotent
methods, so the call stops after exactly one attempt (still returning the
503 response with no error). -/
theorem post503_three_attempts_counterexample :
    runRetry clientDefaultPolicy "POST" false always503 ctxNeverDone zeroJitter
      ≠ RunResult.resp 503 3
    ∧ runRetry clientDefaultPolicy "POST" false always503 ctxNeverDone zeroJitter
      = RunResult.resp 503 1 := by
  constructor
  · decide
  · decide

/-- C1 (amended): POST against an always-503 server.  With retries
disabled the call makes exactly one attempt and returns the 503 response
with no error.  With retries enabled and max attempts 3 the client's
policy is restricted to idempotent methods, so the POST is retried only
when the forced-retry flag is set: without it the call makes exactly one
attempt; with it the call makes exactly 3 attempts and the final result is
still the 503 response with no error — exhausting the retry budget stops
retrying but never synthesizes an error. -/
theorem retry_exhaustion_returns_response :
    runNoRetry always503 = RunResult.resp 503 1
    ∧ runRetry clientDefaultPolicy "POST" false always503 ctxNeverDone zeroJitter
      = RunResult.resp 503 1
    ∧ runRetry clientDefaultPolicy "POST" true always503 ctxNeverDone zeroJitter
      = RunResult.resp 503 3 := by
  refine ⟨rfl, by decide, ?_⟩
  show runRetryLoop clientDefaultPolicy "POST" true always503 ctxNeverDone
      zeroJitter 3 1 = RunResult.resp 503 3
  simp +decide only [runRetryLoop, always503, ctxNeverDone, waitOutcome_none,
    respOf, errOf]

/-- C5: if the policy decides to retry after attempt `k` but the request's
context is cancelled (or its deadline fires) during the inter-attempt
wait, the wait aborts: no further attempt is made (the attempt count stays
at `k`) and the call fails with the `retry interrupted` error wrapping the
context's error — not with a retried outcome. -/
theorem wait_interrupt_aborts (p : Policy) (method : String) (force : Bool)
    (transport : Nat → Outcome) (ctxDone : Nat → Option GoErr)
    (jit : Nat → ℚ) (fuel attempt : Nat) (e : GoErr)
    (hretry : shouldRetry p method (respOf (transport attempt))
        (errOf (transport attempt)) (attempt : Int) force = true)
    (hdone : ctxDone attempt = some e)
    (hdelay : 0 < backoffDelay p (attempt : Int) (jit attempt)) :
    runRetryLoop p method force transport ctxDone jit (fuel + 1) attempt
      = RunResult.err (GoErr.retryInterrupted e) attempt := by
  unfold runRetryLoop
  simp only [hretry, if_true, waitOutcome, hdone, not_le.mpr hdelay, if_neg,
    if_false]

/-- Concrete instance of `wait_interrupt_aborts`: a GET against the
always-503 server whose deadline fires during the first wait aborts after
exactly one attempt with the wrapped deadline error. -/
theorem wait_interrupt_aborts_witness :
    shouldRetry clientDefaultPolicy "GET" (respOf (always503 1))
        (errOf (always503 1)) (1 : Int) false = true
    ∧ ctxDeadlineDuringWait 1 = some GoErr.deadlineExceeded
    ∧ 0 < backoffDelay clientDefaultPolicy (1 : Int) (zeroJitter 1)
    ∧ runRetryLoop clientDefaultPolicy "GET" false always503
        ctxDeadlineDuringWait zeroJitter (2 + 1) 1
      = RunResult.err (GoErr.retryInterrupted GoErr.deadlineExceeded) 1 :=
  ⟨by decide, rfl,
   by
     norm_num [backoffDelay, clientDefaultPolicy, NewPolicy, millisecond,
       second, zeroJitter],
   wait_interrupt_aborts clientDefaultPolicy "GET" false always503
     ctxDeadlineDuringWait zeroJitter 2 1 GoErr.deadlineExceeded
     (by decide) rfl
     (by
       norm_num [backoffDelay, clientDefaultPolicy, NewPolicy, millisecond,
         second, zeroJitter])⟩

/-- C4: for every attempt `k ≥ 1` the computed backoff delay — the capped
exponential `min(base·2^(k−1), maxBackoff)` plus a jitter of at most 20%
of it — lies in `[min(base·2^(k−1), maxBackoff), 1.2 · min(base·2^(k−1),
maxBackoff)]` and never exceeds `1.2 · maxBackoff`. -/
theorem backoff_bounds (p : Policy) (attempt : Int) (j : ℚ)
    (_hk : 1 ≤ attempt) (hj0 : 0 ≤ j) (hj1 : j ≤ 1)
    (hb : 0 ≤ p.baseBackoff) (hm : 0 ≤ p.maxBackoff) :
    min ((p.baseBackoff : ℚ) * 2 ^ (attempt - 1).toNat) (p.maxBackoff : ℚ)
        ≤ backoffDelay p attempt j
    ∧ backoffDelay p attempt j
        ≤ 6 / 5 * min ((p.baseBackoff : ℚ) * 2 ^ (attempt - 1).toNat)
            (p.maxBackoff : ℚ)
    ∧ backoffDelay p attempt j ≤ 6 / 5 * (p.maxBackoff : ℚ) := by
  have hbq : (0 : ℚ) ≤ (p.baseBackoff : ℚ) := by exact_mod_cast hb
  have hmq : (0 : ℚ) ≤ (p.maxBackoff : ℚ) := by exact_mod_cast hm
  set d : ℚ :=
    min ((p.baseBackoff : ℚ) * 2 ^ (attempt - 1).toNat) (p.maxBackoff : ℚ)
    with hd
  have hd0 : 0 ≤ d := by
    refine le_min ?_ hmq
    positivity
  have hdm : d ≤ (p.maxBackoff : ℚ) := min_le_right _ _
  have hjd : 0 ≤ j * d * (1 / 5) := by positivity
  have hjd' : j * d * (1 / 5) ≤ d * (1 / 5) := by
    have := mul_le_of_le_one_left hd0 hj1
    nlinarith
  unfold backoffDelay
  rw [← hd]
  refine ⟨by linarith, by linarith, by linarith⟩

/-- C7 (code bug): resolving the absolute-path target `/test` against the
base URL `http://b` yields `http://btest` — the code inserts the `/`
separator only when the target does NOT start with `/`, yet still trims
the target's leading slashes, so the separator the specification requires
(and the repository's own tests rely on, e.g. `client.Get(ctx, "/test")`
against an `httptest` base URL) is dropped.  A target without a leading
slash is joined as specified. -/
theorem resolve_drops_separator :
    resolveTarget "http://b" "/test" = "http://btest"
    ∧ resolveTarget "http://b" "/test" ≠ "http://b/test"
    ∧ resolveTarget "http://b" "test" = "http://b/test" := by
  refine ⟨by decide, by decide, by decide⟩

/-- A request whose caller set the request-level content-type `text/csv`
(`WithContentType`) while the body factory supplies the default
`application/json` (as `WithJSON`'s factory does). -/
def reqExplicitVsFactory : GoRequest :=
  { method := "POST"
    url := "/x"
    headers := []
    queries := []
    contentType := "text/csv"
    accept := ""
    bodyFactory := some (.ok ([123], "application/json")) }

/-- C2 (code bug, evaluated at the failing input): when the body factory
returns a non-empty default content-type, the wire request carries the
FACTORY's content-type even though the caller explicitly set `text/csv`
via the request-level content-type (`WithContentType`).  The
specification requires the explicitly-set content-type to win, and the
repository's own test `TestClientContentType/overrides_content_type`
(a JSON body with `WithContentType("text/plain")`) asserts the explicit
value reaches the server — an assertion this code path fails. -/
theorem content_type_explicit_overridden_at_failing_input :
    (buildWireRequest "" reqExplicitVsFactory "/x").map
        (fun w => getHeader w.headers "Content-Type")
      = .ok "application/json"
    ∧ ("application/json" : String) ≠ "text/csv" := by
  refine ⟨by decide, by decide⟩

/-- A defaulting block for one key leaves every other key unchanged. -/
theorem getHeader_setDefaultHeader_ne (k v : String)
    (hs : List (String × String)) (k' : String) (h : k' ≠ k) :
    getHeader (setDefaultHeader k v hs) k' = getHeader hs k' := by
  unfold setDefaultHeader
  split
  · exact getHeader_setHeader_ne hs k k' v h
  · rfl

/-- A defaulting block never overwrites a non-empty header. -/
theorem getHeader_setDefaultHeader_kept (k v : String)
    (hs : List (String × String)) (h : getHeader hs k ≠ "") :
    getHeader (setDefaultHeader k v hs) k = getHeader hs k := by
  unfold setDefaultHeader
  rw [if_neg (fun hc => h hc.2)]

/-- A defaulting block fills an empty header with a non-empty value. -/
theorem getHeader_setDefaultHeader_filled (k v : String)
    (hs : List (String × String)) (hv : v ≠ "")
    (h : getHeader hs k = "") :
    getHeader (setDefaultHeader k v hs) k = v := by
  unfold setDefaultHeader
  rw [if_pos ⟨hv, h⟩]
  exact getHeader_setHeader_self hs k v

/-- `applyDefaults` preserves a non-empty caller `Content-Type`. -/
theorem getHeader_applyDefaults_ct (ua ct acc : String)
    (hs : List (String × String))
    (hne : getHeader hs "Content-Type" ≠ "") :
    getHeader (applyDefaults ua ct acc hs) "Content-Type"
      = getHeader hs "Content-Type" := by
  unfold applyDefaults
  rw [getHeader_setDefaultHeader_ne "Accept" acc _ "Content-Type" (by decide)]
  have e1 : getHeader (setDefaultHeader "User-Agent" ua hs) "Content-Type"
      = getHeader hs "Content-Type" :=
    getHeader_setDefaultHeader_ne "User-Agent" ua hs "Content-Type" (by decide)
  rw [getHeader_setDefaultHeader_kept "Content-Type" ct _
    (by rw [e1]; exact hne), e1]

/-- `applyDefaults` preserves a non-empty caller `Accept`. -/
theorem getHeader_applyDefaults_accept (ua ct acc : String)
    (hs : List (String × String))
    (hne : getHeader hs "Accept" ≠ "") :
    getHeader (applyDefaults ua ct acc hs) "Accept"
      = getHeader hs "Accept" := by
  unfold applyDefaults
  have e1 : getHeader (setDefaultHeader "User-Agent" ua hs) "Accept"
      = getHeader hs "Accept" :=
    getHeader_setDefaultHeader_ne "User-Agent" ua hs "Accept" (by decide)
  have e2 : getHeader (setDefaultHeader "Content-Type" ct
        (setDefaultHeader "User-Agent" ua hs)) "Accept"
      = getHeader hs "Accept" := by
    rw [getHeader_setDefaultHeader_ne "Content-Type" ct _ "Accept" (by decide),
      e1]
  rw [getHeader_setDefaultHeader_kept "Accept" acc _
    (by rw [e2]; exact hne), e2]

/-- `applyDefaults` fills an empty `Content-Type` with the computed
value. -/
theorem getHeader_applyDefaults_ct_filled (ua ct acc : String)
    (hs : List (String × String))
    (hct : ct ≠ "") (hempty : getHeader hs "Content-Type" = "") :
    getHeader (applyDefaults ua ct acc hs) "Content-Type" = ct := by
  unfold applyDefaults
  rw [getHeader_setDefaultHeader_ne "Accept" acc _ "Content-Type" (by decide)]
  exact getHeader_setDefaultHeader_filled "Content-Type" ct _ hct
    (by
      rw [getHeader_setDefaultHeader_ne "User-Agent" ua hs "Content-Type"
        (by decide)]
      exact hempty)

/-- Supporting fact about `buildHTTPRequest` (the half of the header
precedence rule the code does satisfy): a `Content-Type` (or `Accept`)
header already set by the caller is never overwritten by computed
defaults; and when no `Content-Type` header is set, a non-empty
factory-provided default content-type is what reaches the wire. -/
theorem header_set_never_overwritten (ua target : String) (r : GoRequest)
    (w : WireRequest)
    (hw : buildWireRequest ua r target = .ok w) :
    (getHeader r.headers "Content-Type" ≠ "" →
        getHeader w.headers "Content-Type"
          = getHeader r.headers "Content-Type")
    ∧ (getHeader r.headers "Accept" ≠ "" →
        getHeader w.headers "Accept" = getHeader r.headers "Accept")
    ∧ (∀ content ctype,
        r.bodyFactory = some (Except.ok (content, ctype)) → ctype ≠ "" →
        getHeader r.headers "Content-Type" = "" →
        getHeader w.headers "Content-Type" = ctype) := by
  unfold buildWireRequest at hw
  cases hbf : r.bodyFactory with
  | none =>
      rw [hbf] at hw
      simp only [Except.ok.injEq] at hw
      subst hw
      refine ⟨?_, ?_, ?_⟩
      · intro hne
        exact getHeader_applyDefaults_ct ua r.contentType r.accept r.headers hne
      · intro hne
        exact getHeader_applyDefaults_accept ua r.contentType r.accept
          r.headers hne
      · intro content ctype heq
        exact absurd heq (by simp)
  | some fe =>
      cases fe with
      | error e =>
          rw [hbf] at hw
          exact absurd hw (by simp)
      | ok pr =>
          obtain ⟨content, ctype⟩ := pr
          rw [hbf] at hw
          simp only [Except.ok.injEq] at hw
          subst hw
          refine ⟨?_, ?_, ?_⟩
          · intro hne
            exact getHeader_applyDefaults_ct ua _ r.accept r.headers hne
          · intro hne
            exact getHeader_applyDefaults_accept ua _ r.accept r.headers hne
          · intro content' ctype' heq hct hempty
            simp only [Option.some.injEq, Except.ok.injEq, Prod.mk.injEq]
              at heq
            obtain ⟨-, rfl⟩ := heq
            have hsel : (if ctype ≠ "" then ctype else r.contentType)
                = ctype := if_pos hct
            simp only [hsel]
            exact getHeader_applyDefaults_ct_filled ua ctype r.accept
              r.headers hct hempty

/-- A request with both `Content-Type` and `Accept` headers explicitly
set by the caller and a JSON body factory. -/
def reqHeadersSet : GoRequest :=
  { method := "POST"
    url := "/x"
    headers := [("Content-Type", "text/csv"), ("Accept", "application/xml")]
    queries := []
    contentType := ""
    accept := "application/json"
    bodyFactory := some (.ok ([1], "application/json")) }

/-- The wire request `buildWireRequest` produces for `reqHeadersSet`. -/
def wireHeadersSet : WireRequest :=
  { url := "/x"
    headers := [("User-Agent", "httpc/0"), ("Content-Type", "text/csv"),
                ("Accept", "application/xml")]
    body := [1]
    contentLength := 1 }

/-- Concrete instance of `header_set_never_overwritten`: caller-set
`Content-Type`/`Accept` headers survive the build unchanged. -/
theorem header_set_never_overwritten_witness :
    buildWireRequest "httpc/0" reqHeadersSet "/x" = Except.ok wireHeadersSet
    ∧ ((getHeader reqHeadersSet.headers "Content-Type" ≠ "" →
          getHeader wireHeadersSet.headers "Content-Type"
            = getHeader reqHeadersSet.headers "Content-Type")
      ∧ (getHeader reqHeadersSet.headers "Accept" ≠ "" →
          getHeader wireHeadersSet.headers "Accept"
            = getHeader reqHeadersSet.headers "Accept")
      ∧ (∀ content ctype,
          reqHeadersSet.bodyFactory = some (Except.ok (content, ctype)) →
          ctype ≠ "" →
          getHeader reqHeadersSet.headers "Content-Type" = "" →
          getHeader wireHeadersSet.headers "Content-Type" = ctype)) :=
  ⟨by decide,
   header_set_never_overwritten "httpc/0" "/x" reqHeadersSet wireHeadersSet
     (by decide)⟩

/-- C8: `Apply` of the API-key provider fails exactly when the secret is
empty or the (normalized) configured injection location is neither
`header` nor `query`; with query placement, name `api_key` and secret
`sekret` the resulting URL query contains `api_key=sekret`, and with
header placement the named header is set to the secret. -/
theorem apikey_apply_spec (opts : APIKeyOptions) (req : HttpRequest) :
    ((apiKeyApply (NewAPIKey opts) req).isOk
      ↔ (opts.key ≠ "" ∧ (normLocation opts.keyIn = "header"
          ∨ normLocation opts.keyIn = "query")))
    ∧ (apiKeyApply (NewAPIKey ⟨"sekret", "query", "api_key"⟩)
          { headers := [], query := [] }
        = .ok { headers := [], query := [("api_key", "sekret")] })
    ∧ getHeader (setHeader ([] : List (String × String)) "api_key" "sekret")
        "api_key" = "sekret"
    ∧ (apiKeyApply (NewAPIKey ⟨"sekret", "header", "X-API-Key"⟩)
          { headers := [], query := [] }
        = .ok { headers := [("X-API-Key", "sekret")], query := [] }) := by
  refine ⟨?_, by decide, by decide, by decide⟩
  unfold apiKeyApply NewAPIKey
  dsimp only
  have hne : normLocation opts.keyIn ≠ "" := normLocation_ne_empty opts.keyIn
  by_cases hk : opts.key = ""
  · simp [hk, Except.isOk, Except.toBool]
  · by_cases hq : normLocation opts.keyIn = "query"
    · simp [hk, hq, Except.isOk, Except.toBool]
    · by_cases hh : normLocation opts.keyIn = "header"
      · simp [hk, hq, hh, Except.isOk, Except.toBool]
      · simp [hk, hq, hh, hne, Except.isOk, Except.toBool]

/-- C9: response body access is idempotent and reads the underlying body
at most once — the first `Bytes` call materializes and caches the body
(closing the source when one is present), and a second call returns the
same result without changing the state or re-reading. -/
theorem response_bytes_idempotent (r : ResponseState)
    (hr : r.reads = 0) (hl : r.loaded = false) (he : r.err = none) :
    (bytes (bytes r).2).1 = (bytes r).1
    ∧ (bytes (bytes r).2).2 = (bytes r).2
    ∧ (bytes r).2.reads ≤ 1
    ∧ (r.source.isSome → (bytes r).2.closed = true) := by
  rcases hsrc : r.source with _ | fe
  · simp [bytes, ensureBody, hl, he, hsrc, hr]
  · cases fe with
    | ok b => simp [bytes, ensureBody, hl, he, hsrc, hr]
    | error e => simp [bytes, ensureBody, hl, he, hsrc, hr]

/-- A freshly wrapped 200 response whose body reads `[104, 105]`. -/
def freshResponse : ResponseState :=
  { status := 200
    source := some (.ok [104, 105])
    reads := 0
    closed := false
    body := []
    loaded := false
    err := none }

/-- Concrete instance of `response_bytes_idempotent` on
`freshResponse`. -/
theorem response_bytes_idempotent_witness :
    freshResponse.reads = 0 ∧ freshResponse.loaded = false
    ∧ freshResponse.err = none
    ∧ ((bytes (bytes freshResponse).2).1 = (bytes freshResponse).1
      ∧ (bytes (bytes freshResponse).2).2 = (bytes freshResponse).2
      ∧ (bytes freshResponse).2.reads ≤ 1
      ∧ (freshResponse.source.isSome →
          (bytes freshResponse).2.closed = true)) :=
  ⟨rfl, rfl, rfl,
   response_bytes_idempotent freshResponse rfl rfl rfl⟩

/-- C6: the empty-host call bypasses the breaker and executes directly;
a response outcome — whatever its status, 2xx or not — counts as a
breaker success and resets the consecutive-failure counter, while only
transport errors count as failures; after 5 consecutive transport
failures (the default threshold) the breaker is open, and the next call
to the same host is rejected without invoking the wrapped transport,
whatever outcome that transport would have produced. -/
theorem breaker_threshold_and_bypass (b : BreakerState) (out : Outcome)
    (s : Int) (hb : b.state = BState.closed) :
    managerDo "" 0 b out = (BreakerResult.executed out, b)
    ∧ breakerStep 0 b (Outcome.resp s)
        = (BreakerResult.executed (Outcome.resp s),
           ⟨BState.closed, 0, b.openedAt⟩)
    ∧ (afterFailures 5).state = BState.opened
    ∧ (∀ o : Outcome, breakerStep 1 (afterFailures 5) o
        = (BreakerResult.rejected, afterFailures 5)) := by
  refine ⟨rfl, ?_, by decide, ?_⟩
  · unfold breakerStep
    simp [hb]
  · intro o
    have h5 : afterFailures 5 = ⟨BState.opened, 5, 0⟩ := by decide
    rw [h5]
    unfold breakerStep
    norm_num [breakerCooldown]

/-- Concrete instance of `breaker_threshold_and_bypass` on a closed
breaker that has already seen 3 failures, with a 503 response. -/
theorem breaker_threshold_and_bypass_witness :
    (⟨BState.closed, 3, 0⟩ : BreakerState).state = BState.closed
    ∧ (managerDo "" 0 ⟨BState.closed, 3, 0⟩ (Outcome.err GoErr.other)
        = (BreakerResult.executed (Outcome.err GoErr.other),
           (⟨BState.closed, 3, 0⟩ : BreakerState))
      ∧ breakerStep 0 ⟨BState.closed, 3, 0⟩ (Outcome.resp 503)
          = (BreakerResult.executed (Outcome.resp 503),
             ⟨BState.closed, 0,
               (⟨BState.closed, 3, 0⟩ : BreakerState).openedAt⟩)
      ∧ (afterFailures 5).state = BState.opened
      ∧ (∀ o : Outcome, breakerStep 1 (afterFailures 5) o
          = (BreakerResult.rejected, afterFailures 5))) :=
  ⟨rfl,
   breaker_threshold_and_bypass ⟨BState.closed, 3, 0⟩
     (Outcome.err GoErr.other) 503 rfl⟩

/-- Concrete instance of `backoff_bounds` at attempt 2 with jitter draw
one half on the client's default policy. -/
theorem backoff_bounds_witness :
    (1 : Int) ≤ 2 ∧ (0 : ℚ) ≤ 1 / 2 ∧ (1 / 2 : ℚ) ≤ 1
    ∧ 0 ≤ clientDefaultPolicy.baseBackoff
    ∧ 0 ≤ clientDefaultPolicy.maxBackoff
    ∧ (min ((clientDefaultPolicy.baseBackoff : ℚ) * 2 ^ ((2 : Int) - 1).toNat)
          (clientDefaultPolicy.maxBackoff : ℚ)
        ≤ backoffDelay clientDefaultPolicy 2 (1 / 2)
      ∧ backoffDelay clientDefaultPolicy 2 (1 / 2)
        ≤ 6 / 5 * min
            ((clientDefaultPolicy.baseBackoff : ℚ) * 2 ^ ((2 : Int) - 1).toNat)
            (clientDefaultPolicy.maxBackoff : ℚ)
      ∧ backoffDelay clientDefaultPolicy 2 (1 / 2)
        ≤ 6 / 5 * (clientDefaultPolicy.maxBackoff : ℚ)) :=
  ⟨by norm_num, by norm_num, by norm_num, by decide, by decide,
   backoff_bounds clientDefaultPolicy 2 (1 / 2) (by norm_num) (by norm_num)
     (by norm_num) (by decide) (by decide)⟩

end Httpc
